import Mathlib

/-!
Verification of the article confidence-scoring engine of the rss-feed-reader
repository: the keyword-frequency fallback classifier, the from-scratch
feedforward neural network with backpropagation, its persistence layer, and
the batch-scoring facades.

Conventions of the shallow embedding:
* JS numbers are modelled as exact rationals (`ℚ`).  `Math.round` is
  `jsRound` (floor of `x + 1/2`, which is the ECMAScript rounding rule).
* The transcendental activation `sigmoid(x) = 1/(1+exp(-x))` cannot be
  expressed inside `ℚ`; the whole development is parameterised by an
  arbitrary activation `sig : ℚ → ℚ`.  Every theorem below holds for every
  `sig`, in particular for the real sigmoid.  `sigmoidDerivative` is the
  concrete function `x * (1 - x)` exactly as in the source.
* JS arrays of numbers become `List ℚ` (or index functions `ℕ → ℚ` for the
  weight matrices, together with the explicit size fields the source keeps).
  The source only reads arrays in bounds on the paths modelled here; the
  `getD _ 0` default never fires on those paths.
* `Math.random()` becomes an explicit stream `rng : ℕ → ℚ` of draws that is
  threaded through shuffling and network initialisation.
* The Supabase `neural_network_models` table becomes a list of rows in
  insertion order (which coincides with `last_trained_at` order).
-/

/-- ECMAScript `Math.round`: round half toward positive infinity. -/
def jsRound (q : ℚ) : ℤ := ⌊q + 1/2⌋

/-- Read a JS numeric array at an index (in bounds on all modelled paths). -/
def vecOfList (l : List ℚ) (i : ℕ) : ℚ := l.getD i 0

/-- An article record as consumed by the scoring engine: `title`,
optional `description`, optional `research_notes`, and `link`. -/
structure Article where
  title : String
  description : Option String
  research_notes : Option String
  link : String
deriving Repr, DecidableEq

/-- ASCII whitespace as matched by the JS regex class inside `split(/\s+/)`. -/
def isJsSpace (c : Char) : Bool :=
  c = ' ' || c = '\t' || c = '\n' || c = '\x0d' || c = '\x0b' || c = '\x0c'

/-- After lowercasing, the JS `replace(/[^a-z0-9\s]/g, ' ')` keeps lowercase
letters, digits and whitespace and maps every other character to a space. -/
def normalizeChar (c : Char) : Char :=
  if ('a' ≤ c && c ≤ 'z') || ('0' ≤ c && c ≤ '9') || isJsSpace c then c else ' '

/-- Split a character list into maximal runs of non-whitespace characters.
`split(/\s+/)` can additionally produce one empty leading token; that token
has length 0 and is removed by the `length > 3` filter either way. -/
def splitWordsAux : List Char → List Char → List String
  | [], acc => if acc.isEmpty then [] else [String.mk acc.reverse]
  | c :: cs, acc =>
    if isJsSpace c then
      if acc.isEmpty then splitWordsAux cs []
      else String.mk acc.reverse :: splitWordsAux cs []
    else splitWordsAux cs (c :: acc)

/-- Word splitting of the normalised text. -/
def splitWords (cs : List Char) : List String := splitWordsAux cs []

/-- The fixed stopword set shared by the fallback scorer and the
neural-network vectoriser (identical copies in the source). -/
def stopwords : List String :=
  ["the", "be", "to", "of", "and", "a", "in", "that", "have", "i",
   "it", "for", "not", "on", "with", "he", "as", "you", "do", "at",
   "this", "but", "his", "by", "from", "they", "we", "say", "her", "she",
   "or", "an", "will", "my", "one", "all", "would", "there", "their",
   "is", "are", "was", "were", "been", "has", "had", "can", "said"]

/-- `extractKeywords`: lowercase, strip everything but `[a-z0-9\s]`, split on
whitespace, keep tokens of length greater than 3 that are not stopwords. -/
def extractKeywords (text : String) : List String :=
  (splitWords ((text.toList.map Char.toLower).map normalizeChar)).filter
    (fun w => decide (3 < w.length) && !(stopwords.contains w))

/-- The text the keyword fallback scorer reads from an article:
the JS template literal forms `title ++ " " ++ (description or "")`. -/
def textKeyword (a : Article) : String :=
  a.title ++ " " ++ a.description.getD ""

/-- The text the neural-network pipeline reads from an article:
`title`, `description` and `research_notes` joined by single spaces. -/
def textNeural (a : Article) : String :=
  a.title ++ " " ++ a.description.getD "" ++ " " ++ a.research_notes.getD ""

/-- All keywords of a corpus, with multiplicity, in corpus order. -/
def corpusWords (articles : List Article) : List String :=
  articles.flatMap (fun a => extractKeywords (textKeyword a))

/-- `calculateWordFrequency`: per-word count over the corpus divided by the
corpus's total word count.  A word absent from the corpus gets mass 0 (the
JS code reads a missing dictionary entry through a zero default); an empty
corpus likewise yields mass 0 for every word (in `ℚ`, `0 / 0 = 0`). -/
def calculateWordFrequency (articles : List Article) (w : String) : ℚ :=
  ((corpusWords articles).count w : ℚ) / ((corpusWords articles).length : ℚ)

/-- The per-article score record of the fallback and neural scorers with the
fields the claims are about.  A JS object missing the `shouldAutoDelete`
field is modelled with `shouldAutoDelete = false` (the only consumer reads
the field through `|| false`). -/
structure ScoreResult where
  confidence : ℤ
  shouldAutoDelete : Bool
deriving Repr, DecidableEq

/-- Sum of per-class probability mass over the article's keywords
(with multiplicity, as the JS `forEach` accumulates them). -/
def keywordMass (corpus : List Article) (article : Article) : ℚ :=
  ((extractKeywords (textKeyword article)).map (calculateWordFrequency corpus)).sum

/-- Number of article keywords (with multiplicity) carrying positive mass in
the corpus — the length of the `matched*Words` array of the source. -/
def matchedCount (corpus : List Article) (article : Article) : ℕ :=
  ((extractKeywords (textKeyword article)).filter
    (fun w => decide (0 < calculateWordFrequency corpus w))).length

/-- `scoreArticleWithKeywords`: the keyword fallback scorer. -/
def scoreArticleWithKeywords (article : Article)
    (approvedArticles junkArticles : List Article) : ScoreResult :=
  let articleWords := extractKeywords (textKeyword article)
  if articleWords.isEmpty then ⟨50, false⟩
  else
    let approvedScore := (articleWords.map (calculateWordFrequency approvedArticles)).sum
    let junkScore := (articleWords.map (calculateWordFrequency junkArticles)).sum
    let matchedApprovedWords := articleWords.filter
      (fun w => decide (0 < calculateWordFrequency approvedArticles w))
    let matchedJunkWords := articleWords.filter
      (fun w => decide (0 < calculateWordFrequency junkArticles w))
    let onlyJunkKeywords : Bool :=
      decide (0 < matchedJunkWords.length) && decide (matchedApprovedWords.length = 0)
    let totalScore := approvedScore + junkScore
    let confidence : ℤ :=
      if totalScore = 0 then 50 else jsRound (approvedScore / totalScore * 100)
    ⟨if onlyJunkKeywords then 0 else confidence, onlyJunkKeywords⟩

/-- `scoreBatchWithKeywords` maps the fallback scorer over the batch. -/
def scoreBatchWithKeywords (articles : List Article)
    (approvedArticles junkArticles : List Article) : List ScoreResult :=
  articles.map (fun a => scoreArticleWithKeywords a approvedArticles junkArticles)

/-- Derivative helper used by backpropagation: the source's
`sigmoidDerivative(x) = x * (1 - x)` (applied to already-activated values). -/
def sigmoidDerivative (x : ℚ) : ℚ := x * (1 - x)

/-- The feedforward network state.  JS arrays of weights become index
functions together with the explicit size fields the source carries; the
source reads and writes them only at indices below those sizes. -/
structure NeuralNetwork where
  inputSize : ℕ
  hiddenSize : ℕ
  outputSize : ℕ
  weightsInputHidden : ℕ → ℕ → ℚ
  weightsHiddenOutput : ℕ → ℕ → ℚ
  biasHidden : ℕ → ℚ
  biasOutput : ℕ → ℚ
  learningRate : ℚ

/-- `NeuralNetwork.forward`: the hidden activations and output activations.
Entries outside the layer size keep the `Array(n).fill(0)` initial value. -/
def NeuralNetwork.forward (sig : ℚ → ℚ) (nn : NeuralNetwork) (inputs : ℕ → ℚ) :
    (ℕ → ℚ) × (ℕ → ℚ) :=
  let hidden : ℕ → ℚ := fun j =>
    if j < nn.hiddenSize then
      sig (nn.biasHidden j + ∑ i in Finset.range nn.inputSize,
        inputs i * nn.weightsInputHidden i j)
    else 0
  let output : ℕ → ℚ := fun k =>
    if k < nn.outputSize then
      sig (nn.biasOutput k + ∑ j in Finset.range nn.hiddenSize,
        hidden j * nn.weightsHiddenOutput j k)
    else 0
  (hidden, output)

/-- `NeuralNetwork.train`: one backpropagation step.  All deltas are local
variables computed from the pre-update state before any field is replaced,
exactly as the source computes them before its mutation loops; updates
outside the loop bounds leave the old entries. -/
def NeuralNetwork.train (sig : ℚ → ℚ) (nn : NeuralNetwork)
    (inputs targetOutput : ℕ → ℚ) : NeuralNetwork :=
  let fw := nn.forward sig inputs
  let hidden := fw.1
  let output := fw.2
  let outputDelta : ℕ → ℚ := fun k =>
    (targetOutput k - output k) * sigmoidDerivative (output k)
  let hiddenDelta : ℕ → ℚ := fun j =>
    (∑ k in Finset.range nn.outputSize, outputDelta k * nn.weightsHiddenOutput j k) *
      sigmoidDerivative (hidden j)
  { nn with
    weightsHiddenOutput := fun i j =>
      if i < nn.hiddenSize ∧ j < nn.outputSize then
        nn.weightsHiddenOutput i j + nn.learningRate * outputDelta j * hidden i
      else nn.weightsHiddenOutput i j
    weightsInputHidden := fun i j =>
      if i < nn.inputSize ∧ j < nn.hiddenSize then
        nn.weightsInputHidden i j + nn.learningRate * hiddenDelta j * inputs i
      else nn.weightsInputHidden i j
    biasOutput := fun i =>
      if i < nn.outputSize then nn.biasOutput i + nn.learningRate * outputDelta i
      else nn.biasOutput i
    biasHidden := fun i =>
      if i < nn.hiddenSize then nn.biasHidden i + nn.learningRate * hiddenDelta i
      else nn.biasHidden i }

/-- `NeuralNetwork.predict` returns the single output activation. -/
def NeuralNetwork.predict (sig : ℚ → ℚ) (nn : NeuralNetwork) (inputs : ℕ → ℚ) : ℚ :=
  (nn.forward sig inputs).2 0

/-- The serialised model state (`toJSON` of the source): the same numeric
content as the network minus nothing — a flat record of sizes, weights,
biases and the learning rate. -/
structure NNData where
  inputSize : ℕ
  hiddenSize : ℕ
  outputSize : ℕ
  weightsInputHidden : ℕ → ℕ → ℚ
  weightsHiddenOutput : ℕ → ℕ → ℚ
  biasHidden : ℕ → ℚ
  biasOutput : ℕ → ℚ
  learningRate : ℚ

/-- `NeuralNetwork.toJSON`. -/
def NeuralNetwork.toJSON (nn : NeuralNetwork) : NNData :=
  ⟨nn.inputSize, nn.hiddenSize, nn.outputSize, nn.weightsInputHidden,
   nn.weightsHiddenOutput, nn.biasHidden, nn.biasOutput, nn.learningRate⟩

/-- `NeuralNetwork.fromJSON`: rebuilds a network from saved data.  The JS
constructor's random initial weights are replaced wholesale by the saved
arrays; `data.learningRate || 0.1` falls back to `0.1` when the saved rate
is the (falsy) number 0. -/
def NeuralNetwork.fromJSON (data : NNData) : NeuralNetwork :=
  { inputSize := data.inputSize
    hiddenSize := data.hiddenSize
    outputSize := data.outputSize
    weightsInputHidden := data.weightsInputHidden
    weightsHiddenOutput := data.weightsHiddenOutput
    biasHidden := data.biasHidden
    biasOutput := data.biasOutput
    learningRate := if data.learningRate = 0 then 1/10 else data.learningRate }

/-- A stream of `Math.random()` draws. -/
def Rng : Type := ℕ → ℚ

/-- Drop the first `k` draws of the stream. -/
def rngDrop (rng : Rng) (k : ℕ) : Rng := fun n => rng (n + k)

/-- The `NeuralNetwork` constructor: every weight and bias is
`Math.random() * 2 - 1`, drawn row-major in the source's order
(input-hidden matrix, hidden-output matrix, hidden bias, output bias);
`learningRate` is fixed at `0.1`. -/
def newNetwork (inputSize hiddenSize outputSize : ℕ) (rng : Rng) :
    NeuralNetwork × Rng :=
  let ihCount := inputSize * hiddenSize
  let hoCount := hiddenSize * outputSize
  (⟨inputSize, hiddenSize, outputSize,
    fun i j => rng (i * hiddenSize + j) * 2 - 1,
    fun i j => rng (ihCount + i * outputSize + j) * 2 - 1,
    fun i => rng (ihCount + hoCount + i) * 2 - 1,
    fun i => rng (ihCount + hoCount + hiddenSize + i) * 2 - 1,
    1/10⟩,
   rngDrop rng (ihCount + hoCount + hiddenSize + outputSize))

/-- `buildVocabulary`: count keyword frequencies over the corpus (keys in
first-seen order, as JS object keys are), sort descending by count with a
stable sort (V8's sort is stable), take the top `maxFeatures` words. -/
def buildVocabulary (articles : List Article) (maxFeatures : ℕ) : List String :=
  let words := articles.flatMap (fun a => extractKeywords (textNeural a))
  let entries := words.eraseDups.map (fun w => (w, words.count w))
  ((entries.mergeSort (fun a b => b.2 ≤ a.2)).take maxFeatures).map (·.1)

/-- `articleToFeatureVector`: binary presence of each vocabulary word in the
article's keyword list. -/
def articleToFeatureVector (article : Article) (vocabulary : List String) : List ℚ :=
  let words := extractKeywords (textNeural article)
  vocabulary.map (fun w => if 0 < words.count w then 1 else 0)

/-- A labelled training example: feature vector and target output array. -/
def TrainingExample : Type := List ℚ × List ℚ

/-- Build the training set: approved examples first with target `[1]`, then
junk examples with target `[0]`, each vectorised against the vocabulary. -/
def makeTrainingData (approved junk : List Article) (vocabulary : List String) :
    List TrainingExample :=
  approved.map (fun a => (articleToFeatureVector a vocabulary, [(1 : ℚ)])) ++
    junk.map (fun a => (articleToFeatureVector a vocabulary, [(0 : ℚ)]))

/-- Swap two positions of a list (the JS destructuring swap); in the
shuffle both indices are always in bounds. -/
def listSwap {α : Type} (l : List α) (i j : ℕ) : List α :=
  match l.get? i, l.get? j with
  | some a, some b => (l.set i b).set j a
  | _, _ => l

/-- The Fisher–Yates downward loop: at index `i` draw
`j = Math.floor(Math.random() * (i + 1))` and swap. -/
def fisherYatesAux {α : Type} : ℕ → List α → Rng → List α × Rng
  | 0, l, rng => (l, rng)
  | i + 1, l, rng =>
    let j := (⌊rng 0 * (i + 2 : ℚ)⌋).toNat
    fisherYatesAux i (listSwap l (i + 1) j) (rngDrop rng 1)

/-- One in-place Fisher–Yates shuffle of the training data. -/
def fisherYates {α : Type} (l : List α) (rng : Rng) : List α × Rng :=
  fisherYatesAux (l.length - 1) l rng

/-- One pass of online SGD over the (already shuffled) training data.  The
source also calls `predict` after each step for error monitoring, which
does not change the state. -/
def trainPass (sig : ℚ → ℚ) (nn : NeuralNetwork) (data : List TrainingExample) :
    NeuralNetwork :=
  data.foldl (fun nn ex => nn.train sig (vecOfList ex.1) (vecOfList ex.2)) nn

/-- The epoch loop: each epoch shuffles the training data in place (the
shuffled order carries into the next epoch) and trains on every example. -/
def trainEpochs (sig : ℚ → ℚ) : ℕ → NeuralNetwork → List TrainingExample → Rng →
    NeuralNetwork × List TrainingExample × Rng
  | 0, nn, data, rng => (nn, data, rng)
  | e + 1, nn, data, rng =>
    let sh := fisherYates data rng
    trainEpochs sig e (trainPass sig nn sh.1) sh.1 sh.2

/-- `trainNeuralNetwork`: build the vocabulary over approved then junk
articles, create a fresh random network (`hiddenSize` 20, `outputSize` 1),
and run the epoch loop. -/
def trainNeuralNetwork (sig : ℚ → ℚ) (approvedArticles junkArticles : List Article)
    (epochs : ℕ) (rng : Rng) : NeuralNetwork × List String :=
  let allArticles := approvedArticles ++ junkArticles
  let vocabulary := buildVocabulary allArticles 100
  let fresh := newNetwork vocabulary.length 20 1 rng
  let trainingData := makeTrainingData approvedArticles junkArticles vocabulary
  let result := trainEpochs sig epochs fresh.1 trainingData fresh.2
  (result.1, vocabulary)

/-- A row of the `neural_network_models` table with the columns the engine
reads back: the serialised model, the vocabulary, the training count and the
`is_active` flag.  Rows are kept in insertion order, which coincides with
`last_trained_at` order. -/
structure ModelRow where
  data : NNData
  vocabulary : List String
  trainingCount : ℕ
  isActive : Bool

/-- The persisted model store. -/
def ModelDB : Type := List ModelRow

/-- The `UPDATE ... SET is_active = false WHERE is_active = true` step. -/
def deactivateRow (r : ModelRow) : ModelRow :=
  if r.isActive then { r with isActive := false } else r

/-- `saveModelToDatabase`: deactivate every active row, then insert a new
active row holding `toJSON` of the network, the vocabulary and the count. -/
def saveModelToDatabase (db : ModelDB) (nn : NeuralNetwork)
    (vocabulary : List String) (trainingCount : ℕ) : ModelDB :=
  db.map deactivateRow ++ [⟨nn.toJSON, vocabulary, trainingCount, true⟩]

/-- `loadModelFromDatabase`: the most recently trained active row, if any,
reconstructed through `fromJSON`; `none` when no active row exists. -/
def loadModelFromDatabase (db : ModelDB) :
    Option (NeuralNetwork × List String × ℕ) :=
  match (db.filter (·.isActive)).getLast? with
  | none => none
  | some r => some (NeuralNetwork.fromJSON r.data, r.vocabulary, r.trainingCount)

/-- `fullModelRetrain`: fails without touching anything when either class
has fewer than 2 historical examples; otherwise builds a fresh vocabulary
and network, trains 100 epochs over all historical data and persists the
result as the new active model.  Returns the new store and the boolean the
JS function returns. -/
def fullModelRetrain (sig : ℚ → ℚ) (db : ModelDB)
    (approvedArticles junkArticles : List Article) (rng : Rng) : ModelDB × Bool :=
  if approvedArticles.length < 2 ∨ junkArticles.length < 2 then (db, false)
  else
    let trained := trainNeuralNetwork sig approvedArticles junkArticles 100 rng
    let trainingData := makeTrainingData approvedArticles junkArticles trained.2
    (saveModelToDatabase db trained.1 trained.2 (trainingData.length * 100), true)

/-- `incrementalTraining`: continue training the active model on only the
newly supplied examples (vectorised against the stored vocabulary), bump
the training count by `examples * epochs` and re-persist; degrade to a full
retrain over the historical data when no active model exists; report
failure without persisting when there are no new examples. -/
def incrementalTraining (sig : ℚ → ℚ) (db : ModelDB)
    (histApproved histJunk : List Article)
    (newApprovedArticles newJunkArticles : List Article)
    (epochs : ℕ) (rng : Rng) : ModelDB × Bool :=
  match loadModelFromDatabase db with
  | none => fullModelRetrain sig db histApproved histJunk rng
  | some (nn, vocabulary, trainingCount) =>
    let trainingData := makeTrainingData newApprovedArticles newJunkArticles vocabulary
    if trainingData.length = 0 then (db, false)
    else
      let result := trainEpochs sig epochs nn trainingData rng
      let newTrainingCount := trainingCount + trainingData.length * epochs
      (saveModelToDatabase db result.1 vocabulary newTrainingCount, true)

/-- The per-article scoring step of the neural batch scorer: vectorise,
predict, map to a 0-100 confidence, zero it out when the auto-delete
threshold `confidence < 5` fires. -/
def scoreOneNeural (sig : ℚ → ℚ) (nn : NeuralNetwork) (vocabulary : List String)
    (article : Article) : ScoreResult :=
  let features := articleToFeatureVector article vocabulary
  let prediction := nn.predict sig (vecOfList features)
  let confidence := jsRound (prediction * 100)
  let shouldAutoDelete := confidence < 5
  ⟨if shouldAutoDelete then 0 else confidence, shouldAutoDelete⟩

/-- `scoreBatchWithNeuralNet`: neutral 50 for every article when either
class has fewer than 2 examples; otherwise score every article with the
saved model if one exists, else train a fresh model for 100 epochs, persist
it (count `(approved + junk) * 100`), and score with it.  Returns the
results together with the possibly updated store. -/
def scoreBatchWithNeuralNet (sig : ℚ → ℚ) (db : ModelDB)
    (articles approvedArticles junkArticles : List Article) (rng : Rng) :
    List ScoreResult × ModelDB :=
  if approvedArticles.length < 2 ∨ junkArticles.length < 2 then
    (articles.map (fun _ => ⟨50, false⟩), db)
  else
    match loadModelFromDatabase db with
    | some (nn, vocabulary, _) =>
      (articles.map (scoreOneNeural sig nn vocabulary), db)
    | none =>
      let trained := trainNeuralNetwork sig approvedArticles junkArticles 100 rng
      let db' := saveModelToDatabase db trained.1 trained.2
        ((approvedArticles.length + junkArticles.length) * 100)
      (articles.map (scoreOneNeural sig trained.1 trained.2), db')

/-- A scored article as returned by the `scoreBatchArticles` facade of the
ml-service: the article together with its confidence and action flags. -/
structure ScoredArticle where
  article : Article
  confidence : ℤ
  shouldAutoFlag : Bool
  shouldAutoDelete : Bool

/-- `scoreBatchArticles` (ml-service facade): neutral 50 with no flags when
both example sets are empty; otherwise take the neural batch scores and
attach the flags, with `shouldAutoFlag` suppressed for articles whose link
is in the junk-links set and `shouldAutoDelete` read through `|| false`. -/
def scoreBatchArticles (sig : ℚ → ℚ) (db : ModelDB)
    (approvedExamples junkExamples : List Article) (junkLinks : List String)
    (articles : List Article) (rng : Rng) : List ScoredArticle :=
  if approvedExamples.length = 0 ∧ junkExamples.length = 0 then
    articles.map (fun a => ⟨a, 50, false, false⟩)
  else
    let neuralNetScores :=
      (scoreBatchWithNeuralNet sig db articles approvedExamples junkExamples rng).1
    (List.range articles.length).map (fun index =>
      let article := (articles.getD index ⟨"", none, none, ""⟩)
      let score := neuralNetScores.getD index ⟨50, false⟩
      let isJunk := junkLinks.contains article.link
      ⟨article, score.confidence,
       !isJunk && decide (80 < score.confidence), score.shouldAutoDelete⟩)

/-- The output-layer delta exactly as the specification writes it:
`(target_k - output_k) * output_k * (1 - output_k)`. -/
def specOutputDelta (sig : ℚ → ℚ) (nn : NeuralNetwork)
    (inputs target : ℕ → ℚ) (k : ℕ) : ℚ :=
  (target k - (nn.forward sig inputs).2 k) * (nn.forward sig inputs).2 k *
    (1 - (nn.forward sig inputs).2 k)

/-- The hidden-layer delta exactly as the specification writes it, over the
pre-update hidden-to-output weights:
`(sum_k outputDelta_k * W_ho[j][k]) * hidden_j * (1 - hidden_j)`. -/
def specHiddenDelta (sig : ℚ → ℚ) (nn : NeuralNetwork)
    (inputs target : ℕ → ℚ) (j : ℕ) : ℚ :=
  (∑ k in Finset.range nn.outputSize,
    specOutputDelta sig nn inputs target k * nn.weightsHiddenOutput j k) *
    (nn.forward sig inputs).1 j * (1 - (nn.forward sig inputs).1 j)

/-- A tiny concrete network for witness instances. -/
def tinyNN : NeuralNetwork :=
  ⟨1, 1, 1, fun _ _ => 1/2, fun _ _ => 1/3, fun _ => 1/5, fun _ => 1/7, 1/10⟩

/-- Default article used where a JS out-of-bounds read cannot occur. -/
def dfltArticle : Article := ⟨"", none, none, ""⟩

/-- Default scored-article record (never actually read). -/
def dfltScored : ScoredArticle := ⟨dfltArticle, 0, false, false⟩

/-- A serialised model with no input features, no hidden units and one
output unit, used for concrete instances: its prediction is `sig` of the
output bias (here 0). -/
def cNNData : NNData :=
  ⟨0, 0, 1, fun _ _ => 0, fun _ _ => 0, fun _ => 0, fun _ => 0, 1/10⟩

/-- A store holding one active row with the model above. -/
def cDB : ModelDB := [⟨cNNData, [], 7, true⟩]

/-- Two approved examples (enough to pass the training-data gate). -/
def approved2 : List Article :=
  [⟨"chip news one", none, none, "p1"⟩, ⟨"chip news two", none, none, "p2"⟩]

/-- Two junk examples (enough to pass the training-data gate). -/
def junk2 : List Article :=
  [⟨"lottery scam", none, none, "j1"⟩, ⟨"lottery spam", none, none, "j2"⟩]

/-- A JS number as it appears at the prediction-to-confidence step: either
a finite value (modelled exactly) or `NaN`.  This refinement of the plain
`ℚ` model is needed to settle what the scorer does when a forward pass
yields an invalid value. -/
inductive JsVal where
  | num : ℚ → JsVal
  | nan : JsVal

/-- JS multiplication: `NaN` is absorbing. -/
def jsMulV : JsVal → JsVal → JsVal
  | .num a, .num b => .num (a * b)
  | _, _ => .nan

/-- JS `Math.round`: `Math.round(NaN)` is `NaN`. -/
def jsRoundV : JsVal → JsVal
  | .num q => .num ((jsRound q : ℤ) : ℚ)
  | .nan => .nan

/-- JS `<` comparison: any comparison with `NaN` is false. -/
def jsLtV : JsVal → JsVal → Bool
  | .num a, .num b => decide (a < b)
  | _, _ => false

/-- The score record of the JS-number refinement. -/
structure ScoreResultJs where
  confidence : JsVal
  shouldAutoDelete : Bool

/-- The per-article body of the neural batch scorer over JS numbers,
operating on the prediction `p` the forward pass produced:
`confidence = Math.round(p * 100)`, `shouldAutoDelete = confidence < 5`,
and the returned confidence is 0 when that flag fires.  No validity check
of any kind is performed on `p`. -/
def scoreOneNeuralJs (p : JsVal) : ScoreResultJs :=
  let confidence := jsRoundV (jsMulV p (.num 100))
  let shouldAutoDelete := jsLtV confidence (.num 5)
  ⟨if shouldAutoDelete then .num 0 else confidence, shouldAutoDelete⟩

/-- The batch loop over JS numbers: an independent map of the per-article
body over the articles, with `p` the network's prediction per article. -/
def scoreBatchNeuralJs (predictFn : Article → JsVal) (articles : List Article) :
    List ScoreResultJs :=
  articles.map (fun a => scoreOneNeuralJs (predictFn a))

/-- C4: an article matching at least one junk keyword and zero approved
keywords is forced to confidence 0 with `shouldAutoDelete = true` by the
keyword fallback scorer, for any pair of non-empty corpora. -/
theorem keyword_pure_junk (article : Article)
    (approved junk : List Article)
    ( _hap : approved ≠ []) ( _hjk : junk ≠ [])
    (hj : 0 < matchedCount junk article)
    (ha : matchedCount approved article = 0) :
    (scoreArticleWithKeywords article approved junk).confidence = 0 ∧
      (scoreArticleWithKeywords article approved junk).shouldAutoDelete = true := by
  unfold scoreArticleWithKeywords
  unfold matchedCount at hj ha
  have hne : (extractKeywords (textKeyword article)).isEmpty = false := by
    rcases h : extractKeywords (textKeyword article) with _ | ⟨w, ws⟩
    · rw [h] at hj; simp at hj
    · simp
  simp only [hne, Bool.false_eq_true, if_false]
  simp only [decide_eq_true hj, decide_eq_true ha, Bool.and_self, if_true]
  constructor <;> trivial

/-- Helper for concrete evaluations: a word-frequency value from a count and
a total established at the natural-number level. -/
theorem calcWF_eq (corpus : List Article) (w : String) (n d : ℕ)
    (hc : (corpusWords corpus).count w = n)
    (hl : (corpusWords corpus).length = d) :
    calculateWordFrequency corpus w = (n : ℚ) / (d : ℚ) := by
  unfold calculateWordFrequency
  rw [hc, hl]

/-- C4 witness instance. -/
theorem keyword_pure_junk_witness :
    (scoreArticleWithKeywords ⟨"zzzz lottery", none, none, "l0"⟩
      [⟨"chip news", none, none, "l1"⟩] [⟨"lottery scam", none, none, "l2"⟩]).confidence = 0 ∧
      (scoreArticleWithKeywords ⟨"zzzz lottery", none, none, "l0"⟩
        [⟨"chip news", none, none, "l1"⟩]
        [⟨"lottery scam", none, none, "l2"⟩]).shouldAutoDelete = true := by
  refine keyword_pure_junk _ _ _ (by decide) (by decide) ?_ ?_
  · have e1 : extractKeywords (textKeyword ⟨"zzzz lottery", none, none, "l0"⟩) =
        ["zzzz", "lottery"] := by decide
    unfold matchedCount
    rw [e1]
    have f1 : calculateWordFrequency [⟨"lottery scam", none, none, "l2"⟩] "zzzz" =
        (0 : ℚ) / 2 := calcWF_eq _ _ 0 2 (by decide) (by decide)
    have f2 : calculateWordFrequency [⟨"lottery scam", none, none, "l2"⟩] "lottery" =
        (1 : ℚ) / 2 := calcWF_eq _ _ 1 2 (by decide) (by decide)
    simp [List.filter, f1, f2]
  · have e1 : extractKeywords (textKeyword ⟨"zzzz lottery", none, none, "l0"⟩) =
        ["zzzz", "lottery"] := by decide
    unfold matchedCount
    rw [e1]
    have f1 : calculateWordFrequency [⟨"chip news", none, none, "l1"⟩] "zzzz" =
        (0 : ℚ) / 2 := calcWF_eq _ _ 0 2 (by decide) (by decide)
    have f2 : calculateWordFrequency [⟨"chip news", none, none, "l1"⟩] "lottery" =
        (0 : ℚ) / 2 := calcWF_eq _ _ 0 2 (by decide) (by decide)
    simp [List.filter, f1, f2]

/-- C9: outside the pure-junk special case, the fallback confidence is the
rounded approved-mass ratio, or the neutral 50 when the total mass is 0
(including the no-keywords early return, whose masses are both 0). -/
theorem keyword_ratio_formula (article : Article)
    (approved junk : List Article)
    (hnot : ¬(0 < matchedCount junk article ∧ matchedCount approved article = 0)) :
    (scoreArticleWithKeywords article approved junk).confidence =
      if keywordMass approved article + keywordMass junk article = 0 then 50
      else jsRound (100 * keywordMass approved article /
        (keywordMass approved article + keywordMass junk article)) := by
  unfold scoreArticleWithKeywords keywordMass
  unfold matchedCount at hnot
  rcases h : extractKeywords (textKeyword article) with _ | ⟨w, ws⟩
  · simp
  · rw [h] at hnot
    have honly : (decide (0 < ((w :: ws).filter
        (fun x => decide (0 < calculateWordFrequency junk x))).length) &&
        decide (((w :: ws).filter
        (fun x => decide (0 < calculateWordFrequency approved x))).length = 0)) = false := by
      rcases Decidable.em (0 < ((w :: ws).filter
          (fun x => decide (0 < calculateWordFrequency junk x))).length) with hc | hc
      · have hz : ¬(((w :: ws).filter
            (fun x => decide (0 < calculateWordFrequency approved x))).length = 0) :=
          fun hz => hnot ⟨hc, hz⟩
        rw [decide_eq_false hz, Bool.and_false]
      · rw [decide_eq_false hc, Bool.false_and]
    simp only [List.isEmpty_cons, Bool.false_eq_true, if_false, honly]
    by_cases hz : ((w :: ws).map (calculateWordFrequency approved)).sum +
        ((w :: ws).map (calculateWordFrequency junk)).sum = 0
    · rw [if_pos hz, if_pos hz]
    · rw [if_neg hz, if_neg hz]
      congr 1
      ring

/-- C9 witness instance. -/
theorem keyword_ratio_formula_witness :
    (scoreArticleWithKeywords ⟨"chip lottery", none, none, "l0"⟩
      [⟨"chip news", none, none, "l1"⟩] [⟨"lottery scam", none, none, "l2"⟩]).confidence =
      if keywordMass [⟨"chip news", none, none, "l1"⟩] ⟨"chip lottery", none, none, "l0"⟩ +
          keywordMass [⟨"lottery scam", none, none, "l2"⟩] ⟨"chip lottery", none, none, "l0"⟩ = 0
      then 50
      else jsRound (100 *
        keywordMass [⟨"chip news", none, none, "l1"⟩] ⟨"chip lottery", none, none, "l0"⟩ /
        (keywordMass [⟨"chip news", none, none, "l1"⟩] ⟨"chip lottery", none, none, "l0"⟩ +
          keywordMass [⟨"lottery scam", none, none, "l2"⟩] ⟨"chip lottery", none, none, "l0"⟩)) := by
  refine keyword_ratio_formula _ _ _ ?_
  rintro ⟨-, ha⟩
  have e1 : extractKeywords (textKeyword ⟨"chip lottery", none, none, "l0"⟩) =
      ["chip", "lottery"] := by decide
  unfold matchedCount at ha
  rw [e1] at ha
  have f1 : calculateWordFrequency [⟨"chip news", none, none, "l1"⟩] "chip" =
      (1 : ℚ) / 2 := calcWF_eq _ _ 1 2 (by decide) (by decide)
  have f2 : calculateWordFrequency [⟨"chip news", none, none, "l1"⟩] "lottery" =
      (0 : ℚ) / 2 := calcWF_eq _ _ 0 2 (by decide) (by decide)
  simp [List.filter, f1, f2] at ha

/-- C1: one `train` call performs exactly the specified backpropagation
step: every in-range weight and bias moves by the learning rate times the
specified delta, with the hidden deltas computed from the pre-update
hidden-to-output weights. -/
theorem nn_train_backprop_step (sig : ℚ → ℚ) (nn : NeuralNetwork)
    (inputs target : ℕ → ℚ) (i j k : ℕ)
    (hi : i < nn.inputSize) (hj : j < nn.hiddenSize) (hk : k < nn.outputSize) :
    (nn.train sig inputs target).weightsHiddenOutput j k =
      nn.weightsHiddenOutput j k +
        nn.learningRate * specOutputDelta sig nn inputs target k *
          (nn.forward sig inputs).1 j ∧
    (nn.train sig inputs target).biasOutput k =
      nn.biasOutput k + nn.learningRate * specOutputDelta sig nn inputs target k ∧
    (nn.train sig inputs target).weightsInputHidden i j =
      nn.weightsInputHidden i j +
        nn.learningRate * specHiddenDelta sig nn inputs target j * inputs i ∧
    (nn.train sig inputs target).biasHidden j =
      nn.biasHidden j + nn.learningRate * specHiddenDelta sig nn inputs target j := by
  have hsum : ∀ j', (∑ k' in Finset.range nn.outputSize,
      (target k' - (nn.forward sig inputs).2 k') *
        sigmoidDerivative ((nn.forward sig inputs).2 k') *
        nn.weightsHiddenOutput j' k') =
      ∑ k' in Finset.range nn.outputSize,
        specOutputDelta sig nn inputs target k' * nn.weightsHiddenOutput j' k' := by
    intro j'
    refine Finset.sum_congr rfl (fun k' _ => ?_)
    unfold specOutputDelta sigmoidDerivative
    ring
  refine ⟨?_, ?_, ?_, ?_⟩
  · show (if j < nn.hiddenSize ∧ k < nn.outputSize then _ else _) = _
    rw [if_pos ⟨hj, hk⟩]
    unfold specOutputDelta sigmoidDerivative
    ring
  · show (if k < nn.outputSize then _ else _) = _
    rw [if_pos hk]
    unfold specOutputDelta sigmoidDerivative
    ring
  · show (if i < nn.inputSize ∧ j < nn.hiddenSize then _ else _) = _
    rw [if_pos ⟨hi, hj⟩]
    unfold specHiddenDelta
    rw [← hsum j]
    unfold sigmoidDerivative
    ring
  · show (if j < nn.hiddenSize then _ else _) = _
    rw [if_pos hj]
    unfold specHiddenDelta
    rw [← hsum j]
    unfold sigmoidDerivative
    ring

/-- C1 witness instance. -/
theorem nn_train_backprop_step_witness :
    0 < tinyNN.inputSize ∧ 0 < tinyNN.hiddenSize ∧ 0 < tinyNN.outputSize ∧
    ((tinyNN.train id (fun _ => 1) (fun _ => 1)).weightsHiddenOutput 0 0 =
      tinyNN.weightsHiddenOutput 0 0 +
        tinyNN.learningRate * specOutputDelta id tinyNN (fun _ => 1) (fun _ => 1) 0 *
          (tinyNN.forward id (fun _ => 1)).1 0 ∧
    (tinyNN.train id (fun _ => 1) (fun _ => 1)).biasOutput 0 =
      tinyNN.biasOutput 0 +
        tinyNN.learningRate * specOutputDelta id tinyNN (fun _ => 1) (fun _ => 1) 0 ∧
    (tinyNN.train id (fun _ => 1) (fun _ => 1)).weightsInputHidden 0 0 =
      tinyNN.weightsInputHidden 0 0 +
        tinyNN.learningRate * specHiddenDelta id tinyNN (fun _ => 1) (fun _ => 1) 0 * 1 ∧
    (tinyNN.train id (fun _ => 1) (fun _ => 1)).biasHidden 0 =
      tinyNN.biasHidden 0 +
        tinyNN.learningRate * specHiddenDelta id tinyNN (fun _ => 1) (fun _ => 1) 0) :=
  ⟨Nat.one_pos, Nat.one_pos, Nat.one_pos,
   nn_train_backprop_step id tinyNN (fun _ => 1) (fun _ => 1) 0 0 0
     Nat.one_pos Nat.one_pos Nat.one_pos⟩

/-- After deactivation no row stays active. -/
theorem filter_deactivate_eq_nil (db : ModelDB) :
    (db.map deactivateRow).filter (·.isActive) = [] := by
  induction db with
  | nil => rfl
  | cons r rest ih =>
    rcases hr : r.isActive with _ | _ <;>
      simp [deactivateRow, hr, List.filter, ih]

/-- C6: serialisation round-trips preserve inference.  `fromJSON ∘ toJSON`
leaves `predict` unchanged, and a `saveModelToDatabase` followed by
`loadModelFromDatabase` reconstructs the same vocabulary, training count
and `predict` function. -/
theorem model_roundtrip_predict (sig : ℚ → ℚ) (nn : NeuralNetwork)
    (db : ModelDB) (vocab : List String) (tc : ℕ) (inputs : ℕ → ℚ) :
    (NeuralNetwork.fromJSON nn.toJSON).predict sig inputs = nn.predict sig inputs ∧
      loadModelFromDatabase (saveModelToDatabase db nn vocab tc) =
        some (NeuralNetwork.fromJSON nn.toJSON, vocab, tc) := by
  constructor
  · rfl
  · unfold loadModelFromDatabase saveModelToDatabase
    rw [List.filter_append, filter_deactivate_eq_nil]
    rfl

/-- C3: with fewer than 2 approved or fewer than 2 junk examples, the batch
scorer returns confidence exactly 50 for every article without touching or
consulting the model store or the random stream (so no network is built,
trained or invoked), and a full retrain returns the failure result with the
store untouched. -/
theorem insufficient_data_guard (sig : ℚ → ℚ) (db : ModelDB)
    (articles approved junk : List Article) (rng : Rng)
    (h : approved.length < 2 ∨ junk.length < 2) :
    scoreBatchWithNeuralNet sig db articles approved junk rng =
      (articles.map (fun _ => ⟨50, false⟩), db) ∧
      fullModelRetrain sig db approved junk rng = (db, false) := by
  unfold scoreBatchWithNeuralNet fullModelRetrain
  rw [if_pos h, if_pos h]
  exact ⟨rfl, rfl⟩

/-- C3 witness instance. -/
theorem insufficient_data_guard_witness :
    scoreBatchWithNeuralNet id [] [⟨"some chip article", none, none, "a"⟩]
        [⟨"chip news", none, none, "p"⟩]
        [⟨"lottery scam", none, none, "j1"⟩, ⟨"lottery spam", none, none, "j2"⟩]
        (fun _ => 0) =
      (([⟨"some chip article", none, none, "a"⟩] : List Article).map
        (fun _ => (⟨50, false⟩ : ScoreResult)), []) ∧
      fullModelRetrain id [] [⟨"chip news", none, none, "p"⟩]
        [⟨"lottery scam", none, none, "j1"⟩, ⟨"lottery spam", none, none, "j2"⟩]
        (fun _ => 0) = ([], false) :=
  insufficient_data_guard id [] _ _ _ (fun _ => 0) (Or.inl (by decide))

/-- C10: both batch entry points return exactly one result per input
article, and the facade's `i`-th result wraps the `i`-th input article, on
every path (the guards and the model store are universally quantified). -/
theorem batch_length_positional (sig : ℚ → ℚ) (db : ModelDB)
    (approved junk : List Article) (junkLinks : List String)
    (articles : List Article) (rng : Rng) (i : ℕ) (hi : i < articles.length) :
    ((scoreBatchWithNeuralNet sig db articles approved junk rng).1).length =
      articles.length ∧
    (scoreBatchArticles sig db approved junk junkLinks articles rng).length =
      articles.length ∧
    ((scoreBatchArticles sig db approved junk junkLinks articles rng).getD i
      dfltScored).article = articles.getD i dfltArticle := by
  have hnn : ∀ (ap jk : List Article),
      ((scoreBatchWithNeuralNet sig db articles ap jk rng).1).length =
        articles.length := by
    intro ap jk
    unfold scoreBatchWithNeuralNet
    by_cases hg : ap.length < 2 ∨ jk.length < 2
    · rw [if_pos hg]; simp
    · rw [if_neg hg]
      cases loadModelFromDatabase db <;> simp
  refine ⟨hnn approved junk, ?_, ?_⟩
  · unfold scoreBatchArticles
    by_cases hg : approved.length = 0 ∧ junk.length = 0
    · rw [if_pos hg]; simp
    · rw [if_neg hg]; simp
  · unfold scoreBatchArticles
    by_cases hg : approved.length = 0 ∧ junk.length = 0
    · rw [if_pos hg]
      rw [List.getD_eq_getElem?_getD, List.getElem?_map]
      rw [List.getElem?_eq_getElem hi]
      simp [List.getD_eq_getElem?_getD, List.getElem?_eq_getElem hi]
    · rw [if_neg hg]
      rw [List.getD_eq_getElem?_getD, List.getElem?_map, List.getElem?_range hi]
      rfl

/-- C10 witness instance. -/
theorem batch_length_positional_witness :
    ((scoreBatchWithNeuralNet id [] [⟨"t", none, none, "a"⟩] [] [] (fun _ => 0)).1).length = 1 ∧
    (scoreBatchArticles id [] [] [] [] [⟨"t", none, none, "a"⟩] (fun _ => 0)).length = 1 ∧
    ((scoreBatchArticles id [] [] [] [] [⟨"t", none, none, "a"⟩] (fun _ => 0)).getD 0
      dfltScored).article = [⟨"t", none, none, "a"⟩].getD 0 dfltArticle :=
  batch_length_positional id [] [] [] [] [⟨"t", none, none, "a"⟩] (fun _ => 0) 0 (by decide)

/-- The prediction of the concrete saved model under a constant activation
is the activation's constant value. -/
theorem cNNData_predict (q : ℚ) (l : List ℚ) :
    (NeuralNetwork.fromJSON cNNData).predict (fun _ => q) (vecOfList l) = q := by
  unfold NeuralNetwork.predict NeuralNetwork.forward NeuralNetwork.fromJSON cNNData
  norm_num

/-- C2 counterexample: with the saved model above and the constant
activation `3/100`, the network's prediction is `3/100`, so
`round(100 * p) = 3`; but the batch scorer's returned confidence for the
article is 0 (the auto-delete zeroing), not 3. -/
theorem nn_batch_confidence_counterexample :
    ((scoreBatchWithNeuralNet (fun _ => 3/100) cDB [⟨"anything", none, none, "x"⟩]
        approved2 junk2 (fun _ => 0)).1.getD 0 ⟨50, false⟩).confidence ≠
      jsRound (100 * (NeuralNetwork.fromJSON cNNData).predict (fun _ => 3/100)
        (vecOfList (articleToFeatureVector ⟨"anything", none, none, "x"⟩ []))) := by
  have hp := cNNData_predict (3/100)
    (articleToFeatureVector ⟨"anything", none, none, "x"⟩ [])
  have hguard : ¬(approved2.length < 2 ∨ junk2.length < 2) := by decide
  have hload : loadModelFromDatabase cDB =
      some (NeuralNetwork.fromJSON cNNData, [], 7) := rfl
  unfold scoreBatchWithNeuralNet
  rw [if_neg hguard, hload]
  show (((([⟨"anything", none, none, "x"⟩] : List Article).map
    (scoreOneNeural (fun _ => 3/100) (NeuralNetwork.fromJSON cNNData) [])).getD 0
      ⟨50, false⟩)).confidence ≠ _
  simp only [List.map_cons, List.map_nil, List.getD_cons_zero, scoreOneNeural]
  rw [hp]
  norm_num [jsRound]

/-- C2 (as amended): on the saved-model path the batch scorer returns, for
the `i`-th article, `scoreOneNeural` of that article, whose confidence is
`round(100 * p)` whenever that value is at least 5, and is 0 (with the
auto-delete flag set) whenever `round(100 * p) < 5`. -/
theorem nn_batch_confidence_autodelete (sig : ℚ → ℚ) (db : ModelDB)
    (articles approved junk : List Article) (rng : Rng)
    (nn : NeuralNetwork) (vocab : List String) (tc : ℕ)
    (h2a : 2 ≤ approved.length) (h2j : 2 ≤ junk.length)
    (hload : loadModelFromDatabase db = some (nn, vocab, tc)) :
    (scoreBatchWithNeuralNet sig db articles approved junk rng).1 =
      articles.map (scoreOneNeural sig nn vocab) ∧
    ∀ article : Article,
      (5 ≤ jsRound (100 * nn.predict sig (vecOfList (articleToFeatureVector article vocab))) →
        (scoreOneNeural sig nn vocab article).confidence =
          jsRound (100 * nn.predict sig (vecOfList (articleToFeatureVector article vocab)))) ∧
      (jsRound (100 * nn.predict sig (vecOfList (articleToFeatureVector article vocab))) < 5 →
        (scoreOneNeural sig nn vocab article).confidence = 0 ∧
          (scoreOneNeural sig nn vocab article).shouldAutoDelete = true) := by
  constructor
  · unfold scoreBatchWithNeuralNet
    rw [if_neg (by omega), hload]
  · intro article
    have hcomm : (100 : ℚ) * nn.predict sig (vecOfList (articleToFeatureVector article vocab)) =
        nn.predict sig (vecOfList (articleToFeatureVector article vocab)) * 100 :=
      mul_comm _ _
    simp only [scoreOneNeural]
    rw [hcomm]
    constructor
    · intro h5
      rw [if_neg (not_lt.mpr h5)]
    · intro h5
      rw [if_pos h5]
      exact ⟨rfl, decide_eq_true h5⟩

/-- C2 witness instance for the amended statement. -/
theorem nn_batch_confidence_autodelete_witness :
    (scoreBatchWithNeuralNet id cDB [⟨"anything", none, none, "x"⟩]
        approved2 junk2 (fun _ => 0)).1 =
      ([⟨"anything", none, none, "x"⟩] : List Article).map
        (scoreOneNeural id (NeuralNetwork.fromJSON cNNData) []) ∧
    ∀ article : Article,
      (5 ≤ jsRound (100 * (NeuralNetwork.fromJSON cNNData).predict id
          (vecOfList (articleToFeatureVector article []))) →
        (scoreOneNeural id (NeuralNetwork.fromJSON cNNData) [] article).confidence =
          jsRound (100 * (NeuralNetwork.fromJSON cNNData).predict id
            (vecOfList (articleToFeatureVector article [])))) ∧
      (jsRound (100 * (NeuralNetwork.fromJSON cNNData).predict id
          (vecOfList (articleToFeatureVector article []))) < 5 →
        (scoreOneNeural id (NeuralNetwork.fromJSON cNNData) [] article).confidence = 0 ∧
          (scoreOneNeural id (NeuralNetwork.fromJSON cNNData) [] article).shouldAutoDelete =
            true) :=
  nn_batch_confidence_autodelete id cDB [⟨"anything", none, none, "x"⟩]
    approved2 junk2 (fun _ => 0) (NeuralNetwork.fromJSON cNNData) [] 7
    (by decide) (by decide) rfl

/-- When the per-article neural score sets the auto-delete flag, the
returned confidence was zeroed out, hence is below 5. -/
theorem scoreOneNeural_delete (sig : ℚ → ℚ) (nn : NeuralNetwork)
    (vocab : List String) (a : Article) :
    (scoreOneNeural sig nn vocab a).shouldAutoDelete = true →
      (scoreOneNeural sig nn vocab a).confidence < 5 := by
  simp only [scoreOneNeural]
  intro h
  have h5 := of_decide_eq_true h
  rw [if_pos h5]
  norm_num

/-- Every result of the neural batch scorer satisfies
auto-delete implies confidence below 5, on every path. -/
theorem nn_batch_delete_lt (sig : ℚ → ℚ) (db : ModelDB)
    (articles ap jk : List Article) (rng : Rng) :
    ∀ r ∈ (scoreBatchWithNeuralNet sig db articles ap jk rng).1,
      r.shouldAutoDelete = true → r.confidence < 5 := by
  intro r hr
  unfold scoreBatchWithNeuralNet at hr
  by_cases hg : ap.length < 2 ∨ jk.length < 2
  · rw [if_pos hg] at hr
    obtain ⟨a, -, rfl⟩ := List.mem_map.mp hr
    intro h
    simp at h
  · rw [if_neg hg] at hr
    cases hL : loadModelFromDatabase db with
    | some m =>
      obtain ⟨nn, vocab, t⟩ := m
      rw [hL] at hr
      obtain ⟨a, -, rfl⟩ := List.mem_map.mp hr
      exact scoreOneNeural_delete sig nn vocab a
    | none =>
      rw [hL] at hr
      obtain ⟨a, -, rfl⟩ := List.mem_map.mp hr
      exact scoreOneNeural_delete _ _ _ a

/-- C7 (as amended): for every scored article of the facade,
`shouldAutoFlag` holds exactly when the confidence exceeds 80 AND the
article's link is not in the junk-links set, and `shouldAutoDelete` still
implies confidence below 5. -/
theorem autoflag_thresholds (sig : ℚ → ℚ) (db : ModelDB)
    (approved junk : List Article) (junkLinks : List String)
    (articles : List Article) (rng : Rng) :
    ∀ s ∈ scoreBatchArticles sig db approved junk junkLinks articles rng,
      s.shouldAutoFlag =
        (!junkLinks.contains s.article.link && decide (80 < s.confidence)) ∧
      (s.shouldAutoDelete = true → s.confidence < 5) := by
  intro s hs
  unfold scoreBatchArticles at hs
  by_cases hg : approved.length = 0 ∧ junk.length = 0
  · rw [if_pos hg] at hs
    obtain ⟨a, -, rfl⟩ := List.mem_map.mp hs
    refine ⟨by simp, ?_⟩
    intro h
    simp at h
  · rw [if_neg hg] at hs
    obtain ⟨i, -, rfl⟩ := List.mem_map.mp hs
    refine ⟨rfl, ?_⟩
    show ((scoreBatchWithNeuralNet sig db articles approved junk rng).1.getD i
      ⟨50, false⟩).shouldAutoDelete = true → _
    rcases lt_or_ge i ((scoreBatchWithNeuralNet sig db articles approved junk rng).1).length
      with hlt | hge
    · rw [List.getD_eq_getElem _ _ hlt]
      exact nn_batch_delete_lt sig db articles approved junk rng _ (List.getElem_mem hlt)
    · rw [List.getD_eq_default _ _ hge]
      intro h
      simp at h

/-- C7 witness instance for the amended statement (no-training-data path,
where the flag comes out false because the confidence is the neutral 50). -/
theorem autoflag_thresholds_witness :
    ((⟨⟨"t", none, none, "a"⟩, 50, false, false⟩ : ScoredArticle).shouldAutoFlag =
      (!([] : List String).contains
          (⟨⟨"t", none, none, "a"⟩, 50, false, false⟩ : ScoredArticle).article.link &&
        decide (80 < (⟨⟨"t", none, none, "a"⟩, 50, false, false⟩ : ScoredArticle).confidence)) ∧
    ((⟨⟨"t", none, none, "a"⟩, 50, false, false⟩ : ScoredArticle).shouldAutoDelete = true →
      (⟨⟨"t", none, none, "a"⟩, 50, false, false⟩ : ScoredArticle).confidence < 5)) :=
  autoflag_thresholds id [] [] [] [] [⟨"t", none, none, "a"⟩] (fun _ => 0)
    ⟨⟨"t", none, none, "a"⟩, 50, false, false⟩ (by
      have h : scoreBatchArticles id [] [] [] [] [⟨"t", none, none, "a"⟩] (fun _ => 0) =
          [⟨⟨"t", none, none, "a"⟩, 50, false, false⟩] := rfl
      rw [h]
      exact List.mem_singleton_self _)

/-- C7 counterexample: a junk-linked article scored with high confidence is
not auto-flagged, so `shouldAutoFlag` is not equivalent to
`confidence > 80`: here the confidence is 90 yet the flag is false. -/
theorem autoflag_junklink_counterexample :
    ((scoreBatchArticles (fun _ => 9/10) cDB approved2 junk2 ["x"]
        [⟨"anything", none, none, "x"⟩] (fun _ => 0)).getD 0 dfltScored).shouldAutoFlag =
      false ∧
    80 < ((scoreBatchArticles (fun _ => 9/10) cDB approved2 junk2 ["x"]
        [⟨"anything", none, none, "x"⟩] (fun _ => 0)).getD 0 dfltScored).confidence := by
  have hp := cNNData_predict (9/10)
    (articleToFeatureVector ⟨"anything", none, none, "x"⟩ [])
  have hload : loadModelFromDatabase cDB =
      some (NeuralNetwork.fromJSON cNNData, [], 7) := rfl
  have hscore : scoreOneNeural (fun _ => 9/10) (NeuralNetwork.fromJSON cNNData) []
      ⟨"anything", none, none, "x"⟩ = ⟨90, false⟩ := by
    simp only [scoreOneNeural]
    rw [hp]
    norm_num [jsRound]
  unfold scoreBatchArticles
  rw [if_neg (by decide)]
  unfold scoreBatchWithNeuralNet
  rw [if_neg (by decide), hload]
  simp only [List.map_cons, List.map_nil, List.length_cons, List.length_nil,
    List.range_succ, List.range_zero, List.nil_append, List.getD_cons_zero, hscore]
  constructor
  · rfl
  · norm_num

/-- Loading right after saving returns exactly the saved row. -/
theorem loadModel_save (db : ModelDB) (nn : NeuralNetwork)
    (vocab : List String) (tc : ℕ) :
    loadModelFromDatabase (saveModelToDatabase db nn vocab tc) =
      some (NeuralNetwork.fromJSON nn.toJSON, vocab, tc) := by
  unfold loadModelFromDatabase saveModelToDatabase
  rw [List.filter_append, filter_deactivate_eq_nil]
  rfl

/-- One training example per new article. -/
theorem length_makeTrainingData (a j : List Article) (v : List String) :
    (makeTrainingData a j v).length = a.length + j.length := by
  simp [makeTrainingData]

/-- C5 (as amended): with an active model and at least one new example,
incremental training succeeds; its result does not depend on the
historical corpus (it trains only on the new examples); the persisted
active row keeps the stored vocabulary unchanged and carries training
count `old + examples * epochs`; and without an active model the call
degrades to a full retrain over the historical data.  (The re-persist
inserts a new active row — see the counterexample — rather than
overwriting the previous row in place.) -/
theorem incremental_training_behavior (sig : ℚ → ℚ) (db : ModelDB)
    (histApproved histJunk newApproved newJunk : List Article)
    (epochs : ℕ) (rng : Rng)
    (nn : NeuralNetwork) (vocab : List String) (tc : ℕ)
    (hload : loadModelFromDatabase db = some (nn, vocab, tc))
    (hne : (makeTrainingData newApproved newJunk vocab).length ≠ 0) :
    (incrementalTraining sig db histApproved histJunk newApproved newJunk
      epochs rng).2 = true ∧
    (∀ hA hJ : List Article,
      incrementalTraining sig db hA hJ newApproved newJunk epochs rng =
        incrementalTraining sig db histApproved histJunk newApproved newJunk
          epochs rng) ∧
    loadModelFromDatabase (incrementalTraining sig db histApproved histJunk
        newApproved newJunk epochs rng).1 =
      some (NeuralNetwork.fromJSON (NeuralNetwork.toJSON
          (trainEpochs sig epochs nn (makeTrainingData newApproved newJunk vocab)
            rng).1),
        vocab, tc + (newApproved.length + newJunk.length) * epochs) ∧
    (∀ db₂ : ModelDB, loadModelFromDatabase db₂ = none →
      incrementalTraining sig db₂ histApproved histJunk newApproved newJunk
        epochs rng = fullModelRetrain sig db₂ histApproved histJunk rng) := by
  refine ⟨?_, ?_, ?_, ?_⟩
  · unfold incrementalTraining
    rw [hload]
    simp only [if_neg hne]
  · intro hA hJ
    unfold incrementalTraining
    rw [hload]
  · unfold incrementalTraining
    rw [hload]
    simp only [if_neg hne]
    rw [loadModel_save, length_makeTrainingData]
  · intro db₂ h₂
    unfold incrementalTraining
    rw [h₂]

/-- C5 witness instance for the amended statement. -/
theorem incremental_training_behavior_witness :
    (incrementalTraining id cDB [] [] [⟨"fresh chip story", none, none, "n1"⟩] []
      1 (fun _ => 0)).2 = true ∧
    (∀ hA hJ : List Article,
      incrementalTraining id cDB hA hJ [⟨"fresh chip story", none, none, "n1"⟩] []
          1 (fun _ => 0) =
        incrementalTraining id cDB [] [] [⟨"fresh chip story", none, none, "n1"⟩] []
          1 (fun _ => 0)) ∧
    loadModelFromDatabase (incrementalTraining id cDB [] []
        [⟨"fresh chip story", none, none, "n1"⟩] [] 1 (fun _ => 0)).1 =
      some (NeuralNetwork.fromJSON (NeuralNetwork.toJSON
          (trainEpochs id 1 (NeuralNetwork.fromJSON cNNData)
            (makeTrainingData [⟨"fresh chip story", none, none, "n1"⟩] [] [])
            (fun _ => 0)).1),
        [], 7 + (([⟨"fresh chip story", none, none, "n1"⟩] : List Article).length +
          ([] : List Article).length) * 1) ∧
    (∀ db₂ : ModelDB, loadModelFromDatabase db₂ = none →
      incrementalTraining id db₂ [] [] [⟨"fresh chip story", none, none, "n1"⟩] []
        1 (fun _ => 0) = fullModelRetrain id db₂ [] [] (fun _ => 0)) :=
  incremental_training_behavior id cDB [] [] [⟨"fresh chip story", none, none, "n1"⟩]
    [] 1 (fun _ => 0) (NeuralNetwork.fromJSON cNNData) [] 7 rfl (by decide)

/-- C5 counterexample: re-persisting does not overwrite the active row in
place; it inserts a new row.  Starting from a one-row store, a successful
incremental training leaves a two-row store. -/
theorem incremental_training_inserts_row :
    cDB.length = 1 ∧
    (incrementalTraining id cDB [] [] [⟨"fresh chip story", none, none, "n1"⟩] []
      1 (fun _ => 0)).2 = true ∧
    ((incrementalTraining id cDB [] [] [⟨"fresh chip story", none, none, "n1"⟩] []
      1 (fun _ => 0)).1).length = 2 := by
  refine ⟨rfl, ?_, ?_⟩ <;> decide

/-- C8 counterexample: when the forward pass yields `NaN` for an article,
the batch scorer does not fall back to the neutral 50; the `NaN`
propagates into the returned confidence (`Math.round(NaN) = NaN`, and
`NaN < 5` is false, so not even the auto-delete branch fires). -/
theorem nan_propagates_counterexample :
    ((scoreBatchNeuralJs (fun _ => JsVal.nan) [⟨"malformed", none, none, "m"⟩]).getD 0
      ⟨JsVal.num 50, false⟩).confidence = JsVal.nan ∧
    JsVal.nan ≠ JsVal.num 50 :=
  ⟨rfl, fun h => JsVal.noConfusion h⟩

/-- C8 (as amended): the batch scorer performs no output-validity check:
its `i`-th result is exactly the per-article confidence computation applied
to the `i`-th prediction (so an invalid article cannot affect the others),
and on a `NaN` prediction that computation returns confidence `NaN` — not
the neutral 50 — with the auto-delete flag off. -/
theorem nan_no_validation (predictFn : Article → JsVal) (articles : List Article)
    (i : ℕ) (hi : i < articles.length) :
    (scoreBatchNeuralJs predictFn articles).getD i ⟨JsVal.num 50, false⟩ =
      scoreOneNeuralJs (predictFn (articles.getD i dfltArticle)) ∧
    (scoreOneNeuralJs JsVal.nan).confidence = JsVal.nan ∧
    (scoreOneNeuralJs JsVal.nan).shouldAutoDelete = false := by
  refine ⟨?_, rfl, rfl⟩
  unfold scoreBatchNeuralJs
  rw [List.getD_eq_getElem?_getD, List.getElem?_map, List.getElem?_eq_getElem hi]
  simp [List.getD_eq_getElem?_getD, List.getElem?_eq_getElem hi]

/-- C8 witness instance for the amended statement. -/
theorem nan_no_validation_witness :
    ((scoreBatchNeuralJs (fun _ => JsVal.nan) [⟨"malformed", none, none, "m"⟩]).getD 0
      ⟨JsVal.num 50, false⟩ =
      scoreOneNeuralJs ((fun _ => JsVal.nan)
        (([⟨"malformed", none, none, "m"⟩] : List Article).getD 0 dfltArticle))) ∧
    (scoreOneNeuralJs JsVal.nan).confidence = JsVal.nan ∧
    (scoreOneNeuralJs JsVal.nan).shouldAutoDelete = false :=
  nan_no_validation (fun _ => JsVal.nan) [⟨"malformed", none, none, "m"⟩] 0 (by decide)
